import Mathlib

/-!
Verification of the AEFI acquisition scan engine (Rust sources
`arcus_driver.rs` and `lib.rs`) against its natural-language specification.

The driver is embedded at the byte level: a serial port is modelled as a
finite list of read events (one per `port.read` call), and commands are
modelled as the byte sequences they transmit.  The scan coordinator is
embedded with a device oracle (the scripted outcome of the k-th `move_to`
and the k-th `get_position` call) and explicit fuel for its three loops;
running out of fuel or of scripted events models divergence.  Positions are
mathematical integers: the spec treats positions as plain signed integers
and no claim here probes `i32` wraparound.
-/

/-- Error taxonomy of the driver (`ArcusError` in `arcus_driver.rs`).
The transport-level I/O error constructor is called `Io` in the source. -/
inductive ArcusError where
  | Serial (msg : String)
  | IoError (msg : String)
  | Timeout
  | InvalidResponse (raw : String)
deriving DecidableEq, Repr

/-- The `Display` rendering produced by `thiserror` for `ArcusError`
(`e.to_string()` in `lib.rs`). -/
def ArcusError.toMessage : ArcusError → String
  | .Serial m => "Serial port error: " ++ m
  | .IoError m => "IO error: " ++ m
  | .Timeout => "Timeout waiting for response"
  | .InvalidResponse r => "Invalid response: " ++ r

/-- Decimal digit run to a natural number; `none` when empty or when a
non-digit character occurs.  Helper for the model of `str::parse::<i32>`. -/
def digitsToNat (cs : List Char) : Option Nat :=
  if cs.isEmpty then none
  else if cs.all Char.isDigit then
    some (cs.foldl (fun a c => a * 10 + (c.toNat - 48)) 0)
  else none

/-- Model of Rust `str::trim`: drop whitespace from both ends.  The claims
only exercise ASCII whitespace, where `Char.isWhitespace` and the Rust
`char::is_whitespace` predicate agree. -/
def rustTrim (s : String) : String :=
  String.mk ((((s.toList.dropWhile Char.isWhitespace).reverse.dropWhile
    Char.isWhitespace).reverse))

/-- Model of Rust `str::parse::<i32>`: an optional sign (`+` or `-`)
followed by a non-empty digit run, rejected when the value overflows the
`i32` range. -/
def parseI32 (s : String) : Option Int :=
  match s.toList with
  | [] => none
  | c :: rest =>
    let signed : Option (Int × List Char) :=
      if c = '+' then some (1, rest)
      else if c = '-' then some (-1, rest)
      else some (1, c :: rest)
    match signed with
    | none => none
    | some (sign, digits) =>
      match digitsToNat digits with
      | none => none
      | some m =>
        let v : Int := sign * (m : Int)
        if -2147483648 ≤ v ∧ v ≤ 2147483647 then some v else none

/-- `ArcusController::is_moving`, given the response line already read:
`resp.trim().parse::<i32>().unwrap_or(0)`, then `(status & 1) != 0`.
Bit 0 of a two-complement `i32` is set exactly when the value is odd,
and `Int.emod` by 2 is `0` or `1`, so `status % 2 != 0` is that bit test. -/
def is_moving_of (resp : String) : Bool :=
  let status : Int := (parseI32 (rustTrim resp)).getD 0
  status % 2 != 0

/-- One outcome of a single byte-sized `port.read` call inside
`read_response`: a byte was delivered, zero bytes were delivered
(`Ok(0)`), the read timed out, or it failed with another I/O error. -/
inductive ReadEvent where
  | byte (b : Nat)
  | zero
  | timedOut
  | ioFail (msg : String)
deriving DecidableEq, Repr

/-- ASCII decoding of the accumulation buffer.  The source decodes with
`String::from_utf8_lossy`, which is the identity byte-to-char map on the
ASCII streams all claims are about. -/
def decodeAscii (bytes : List Nat) : String :=
  String.mk (bytes.map Char.ofNat)

/-- The loop body of `ArcusController::read_response`, consuming scripted
read events with the accumulation buffer threaded through.  A terminator
byte (10 or 13) is dropped while the buffer is empty and ends the read once
it is non-empty; a timed-out read yields `Timeout`; any other read error
yields `IoError`; an exhausted script (the port never answering again)
models an unending blocked loop and yields `none`. -/
def read_response_loop : List ReadEvent → List Nat → Option (Except ArcusError String)
  | [], _ => none
  | ReadEvent.byte b :: rest, buf =>
    if b = 10 ∨ b = 13 then
      if buf.isEmpty then read_response_loop rest buf
      else some (Except.ok (decodeAscii buf))
    else read_response_loop rest (buf ++ [b])
  | ReadEvent.zero :: rest, buf => read_response_loop rest buf
  | ReadEvent.timedOut :: _, _ => some (Except.error ArcusError.Timeout)
  | ReadEvent.ioFail m :: _, _ => some (Except.error (ArcusError.IoError m))

/-- `ArcusController::read_response` on a scripted byte stream. -/
def read_response (events : List ReadEvent) : Option (Except ArcusError String) :=
  read_response_loop events []

/-- Parsing step of `ArcusController::get_position`:
`resp.trim().parse::<i32>().map_err(|_| ArcusError::InvalidResponse(resp))`. -/
def parsePosition (resp : String) : Except ArcusError Int :=
  match parseI32 (rustTrim resp) with
  | some n => Except.ok n
  | none => Except.error (ArcusError.InvalidResponse resp)

/-- `ArcusController::get_position` given the scripted byte stream that
answers its query: read one response line, then parse it. -/
def get_position_of (events : List ReadEvent) : Option (Except ArcusError Int) :=
  match read_response events with
  | none => none
  | some (Except.error e) => some (Except.error e)
  | some (Except.ok resp) => some (parsePosition resp)

/-- Code points of a string; on the ASCII command texts of this protocol
this is exactly the UTF-8 byte sequence `cmd.as_bytes()`. -/
def strBytes (s : String) : List Nat :=
  s.toList.map Char.toNat

/-- `ArcusController::send_command`: the transmitted bytes are the bytes of
the command text followed by the single terminator byte `b"\r"` (13). -/
def send_command_bytes (cmd : String) : List Nat :=
  strBytes cmd ++ [13]

/-- Command text of `get_position`: `format!("P{}", axis)`. -/
def get_position_cmd (axis : Char) : String :=
  "P".push axis

/-- Command text of `move_to`: `format!("{}{}", axis, position)`. -/
def move_to_cmd (axis : Char) (position : Int) : String :=
  (String.mk [axis]) ++ toString position

/-- Command text of `is_moving`: `"MST"`. -/
def is_moving_cmd : String := "MST"

/-- Command text of `set_high_speed`: `format!("HS{}={}", axis, speed)`. -/
def set_high_speed_cmd (axis : Char) (speed : Int) : String :=
  "HS" ++ (String.mk [axis]) ++ "=" ++ toString speed

/-- Device oracle for the scan coordinator: the scripted outcome of the
k-th `move_to` call and of the k-th `get_position` call issued by
`RustScanExecutor::start_scan` (counting from 0 per connected controller). -/
structure Device where
  moveResult : Nat → Except ArcusError Unit
  posResult : Nat → Except ArcusError Int

/-- Outcome of the tight per-step poll loop of `start_scan`: arrival with
the measured position and the next `get_position` call index, a propagated
`get_position` error with the next call index, or fuel exhaustion. -/
inductive PollRes where
  | arrived (pos : Int) (p : Nat)
  | failed (e : ArcusError) (p : Nat)
  | diverge
deriving DecidableEq, Repr

/-- Outcome of the sweep loop (and of a whole `start_scan` run): the
accumulated result list with the final call counters, a propagated error
with the call counters at the failure, or fuel exhaustion (which models the
non-terminating executions of the source). -/
inductive ScanRes where
  | ok (results : List (Int × Int)) (m p : Nat)
  | err (e : ArcusError) (m p : Nat)
  | diverge
deriving DecidableEq, Repr

/-- The initial arrival-wait loop of `start_scan`:
`while let Ok(pos) = ctrl.get_position('x') { if (pos - x_min).abs() < 10 { break; } ... }`.
Each iteration consumes one `get_position` result (index `p`).  The loop
ends either because the pattern match fails (the query returned an error,
which is dropped) or by the `break` on arrival; both ends return the next
call index.  `none` is fuel exhaustion (the loop still running). -/
def arrivalWait (d : Device) (x_min : Int) : Nat → Nat → Option Nat
  | _, 0 => none
  | p, fuel + 1 =>
    match d.posResult p with
    | Except.error _ => some (p + 1)
    | Except.ok pos =>
      if (pos - x_min).natAbs < 10 then some (p + 1)
      else arrivalWait d x_min (p + 1) fuel

/-- The tight per-step poll loop of `start_scan` for target `cx`: query the
position, propagate any error, record arrival when `(pos - cx).abs() < 5`,
otherwise retry. -/
def pollLoop (d : Device) (cx : Int) : Nat → Nat → PollRes
  | _, 0 => PollRes.diverge
  | p, fuel + 1 =>
    match d.posResult p with
    | Except.error e => PollRes.failed e (p + 1)
    | Except.ok pos =>
      if (pos - cx).natAbs < 5 then PollRes.arrived pos (p + 1)
      else pollLoop d cx (p + 1) fuel

/-- The sweep loop of `start_scan`: `while current_x <= x_max`, move to the
target (propagating errors), run the tight poll loop (propagating errors),
append `(current_x, pos)` on arrival, then `current_x += step`.  `m` and
`p` are the next `move_to` and `get_position` call indices, `acc` the
results accumulated so far. -/
def sweepLoop (d : Device) (x_max step : Int) :
    Int → List (Int × Int) → Nat → Nat → Nat → ScanRes
  | _, _, _, _, 0 => ScanRes.diverge
  | cx, acc, m, p, fuel + 1 =>
    if cx ≤ x_max then
      match d.moveResult m with
      | Except.error e => ScanRes.err e (m + 1) p
      | Except.ok _ =>
        match pollLoop d cx p fuel with
        | PollRes.failed e p2 => ScanRes.err e (m + 1) p2
        | PollRes.diverge => ScanRes.diverge
        | PollRes.arrived pos p2 =>
          sweepLoop d x_max step (cx + step) (acc ++ [(cx, pos)]) (m + 1) p2 fuel
    else ScanRes.ok acc m p

/-- The body of `RustScanExecutor::start_scan` after the connected
controller has been obtained, starting from call counters `m0`/`p0`: move
to `x_min` (propagating an error), run the arrival-wait loop, then run the
sweep loop with an empty result list. -/
def start_scan_run (d : Device) (m0 p0 : Nat) (x_min x_max step : Int)
    (fuel : Nat) : ScanRes :=
  match d.moveResult m0 with
  | Except.error e => ScanRes.err e (m0 + 1) p0
  | Except.ok _ =>
    match arrivalWait d x_min p0 fuel with
    | none => ScanRes.diverge
    | some p => sweepLoop d x_max step x_min [] (m0 + 1) p fuel

/-- The swept target sequence the spec describes: `x_min, x_min + step, …`
up to and including the last value `≤ x_max`; empty when the range is empty
(and, degenerately, when `step ≤ 0`, where the source loop never ends). -/
def targetList (x_min x_max step : Int) : List Int :=
  if h : 0 < step ∧ x_min ≤ x_max then
    x_min :: targetList (x_min + step) x_max step
  else []
termination_by (x_max + step - x_min).toNat
decreasing_by
  omega

/-- Errors surfaced to the Python host in `lib.rs`: `PyIOError` for
rendered driver errors, `PyRuntimeError` for the "Not connected" usage
error. -/
inductive PyErr where
  | pyIOError (msg : String)
  | runtimeError (msg : String)
deriving DecidableEq, Repr

/-- A connected `ArcusController` as held by the executor: the device
oracle plus the number of `move_to` and `get_position` calls already
issued on it. -/
structure ControllerState where
  device : Device
  mCount : Nat
  pCount : Nat

/-- `RustScanExecutor`: port parameters and the optional connected
controller. -/
structure RustScanExecutor where
  port_name : String
  baud_rate : Nat
  controller : Option ControllerState

/-- `RustScanExecutor::new`. -/
def RustScanExecutor.new (port_name : String) (baud_rate : Nat) :
    RustScanExecutor :=
  { port_name := port_name, baud_rate := baud_rate, controller := none }

/-- `RustScanExecutor::connect`, parameterised by the outcome of
`ArcusController::connect`: on success the stored controller is replaced,
on failure the error is rendered as a `PyIOError` and `self.controller` is
left untouched. -/
def RustScanExecutor.connect (ex : RustScanExecutor)
    (res : Except ArcusError Device) : Except PyErr String × RustScanExecutor :=
  match res with
  | Except.ok d =>
    (Except.ok ("Connected to " ++ ex.port_name ++ " at " ++ toString ex.baud_rate),
      { ex with controller := some { device := d, mCount := 0, pCount := 0 } })
  | Except.error e => (Except.error (PyErr.pyIOError e.toMessage), ex)

/-- `RustScanExecutor::move_axis`: a usage error when not connected,
otherwise one `move_to` call whose error is rendered as a `PyIOError`. -/
def RustScanExecutor.move_axis (ex : RustScanExecutor) (axis : Char)
    (position : Int) : Except PyErr String × RustScanExecutor :=
  match ex.controller with
  | none => (Except.error (PyErr.runtimeError "Not connected"), ex)
  | some cs =>
    let ex2 := { ex with controller := some { cs with mCount := cs.mCount + 1 } }
    match cs.device.moveResult cs.mCount with
    | Except.error e => (Except.error (PyErr.pyIOError e.toMessage), ex2)
    | Except.ok _ =>
      (Except.ok ("Moved " ++ String.mk [axis] ++ " to " ++ toString position), ex2)

/-- `RustScanExecutor::start_scan`: a usage error when not connected,
otherwise the scan run from the controller state, with driver errors
rendered as `PyIOError`; `none` models a run that never returns. -/
def RustScanExecutor.start_scan (ex : RustScanExecutor)
    (x_min x_max step : Int) (fuel : Nat) :
    Option (Except PyErr (List (Int × Int)) × RustScanExecutor) :=
  match ex.controller with
  | none => some (Except.error (PyErr.runtimeError "Not connected"), ex)
  | some cs =>
    match start_scan_run cs.device cs.mCount cs.pCount x_min x_max step fuel with
    | ScanRes.ok res m p =>
      some (Except.ok res,
        { ex with controller := some { device := cs.device, mCount := m, pCount := p } })
    | ScanRes.err e m p =>
      some (Except.error (PyErr.pyIOError e.toMessage),
        { ex with controller := some { device := cs.device, mCount := m, pCount := p } })
    | ScanRes.diverge => none

deriving instance DecidableEq for Except

/-- A device whose position queries always fail with `Timeout` and whose
moves always succeed; it never reports any position at all. -/
def devErrPos : Device :=
  { moveResult := fun _ => Except.ok (), posResult := fun _ => Except.error ArcusError.Timeout }

/-- The simulated stage of the spec: it reports the requested target
immediately on every query during the scan `start_scan(0, 10, 5)`. -/
def devExample : Device :=
  { moveResult := fun _ => Except.ok ()
    posResult := fun k =>
      Except.ok (match k with | 0 => 0 | 1 => 0 | 2 => 5 | _ => 10) }

/-- A device that moves fine, answers the arrival-wait query with the
target, then fails the first sweep-phase position query. -/
def devSweepFail : Device :=
  { moveResult := fun _ => Except.ok ()
    posResult := fun k =>
      match k with
      | 0 => Except.ok 0
      | _ => Except.error (ArcusError.IoError "broken pipe") }

/-- A device whose sweep-phase poll first answers out of tolerance (a
retry happens), then fails; its third move also fails. -/
def devRetryFail : Device :=
  { moveResult := fun k =>
      match k with
      | 2 => Except.error (ArcusError.Serial "gone")
      | _ => Except.ok ()
    posResult := fun k =>
      match k with
      | 0 => Except.ok 0
      | 1 => Except.ok 50
      | 2 => Except.error ArcusError.Timeout
      | _ => Except.ok 0 }

theorem digitChar_ne_cr (n : Nat) : Nat.digitChar n ≠ '\r' := by
  by_cases h : n < 16
  · interval_cases n <;> decide
  · have h16 : Nat.digitChar n = '*' := by
      unfold Nat.digitChar
      iterate 16 rw [if_neg (by omega)]
    rw [h16]
    decide

theorem toDigitsCore_ne_cr (b : Nat) :
    ∀ (fuel n : Nat) (ds : List Char), (∀ c ∈ ds, c ≠ '\r') →
      ∀ c ∈ Nat.toDigitsCore b fuel n ds, c ≠ '\r' := by
  intro fuel
  induction fuel with
  | zero => intro n ds hds c hc; exact hds c hc
  | succ fuel ih =>
    intro n ds hds c hc
    rw [Nat.toDigitsCore] at hc
    have hcons : ∀ x ∈ Nat.digitChar (n % b) :: ds, x ≠ '\r' := by
      intro x hx
      rcases List.mem_cons.mp hx with h | h
      · subst h; exact digitChar_ne_cr _
      · exact hds x h
    by_cases hnb : n / b = 0
    · rw [if_pos hnb] at hc
      exact hcons c hc
    · rw [if_neg hnb] at hc
      exact ih (n / b) _ hcons c hc

theorem natRepr_ne_cr (n : Nat) : ∀ c ∈ (Nat.repr n).toList, c ≠ '\r' := by
  intro c hc
  exact toDigitsCore_ne_cr 10 (n + 1) n [] (by intro x hx; cases hx) c hc

theorem toString_int_ne_cr (n : Int) : ∀ c ∈ (toString n).toList, c ≠ '\r' := by
  cases n with
  | ofNat m => exact natRepr_ne_cr m
  | negSucc m =>
    intro c hc
    have hsplit : (toString (Int.negSucc m)).toList
        = '-' :: (Nat.repr (m + 1)).toList := rfl
    rw [hsplit] at hc
    rcases List.mem_cons.mp hc with h | h
    · subst h; decide
    · exact natRepr_ne_cr (m + 1) c h

theorem char_toNat_thirteen {c : Char} (h : c.toNat = 13) : c = '\r' := by
  have h2 := Char.ofNat_toNat c
  rw [h] at h2
  exact h2.symm.trans (by decide)

theorem count_cr_send (s : String) (hs : ∀ c ∈ s.toList, c ≠ '\r') :
    (send_command_bytes s).count 13 = 1 := by
  unfold send_command_bytes
  rw [List.count_append]
  have h0 : (strBytes s).count 13 = 0 := by
    apply List.count_eq_zero_of_not_mem
    intro hmem
    unfold strBytes at hmem
    rcases List.mem_map.mp hmem with ⟨c, hc, hEq⟩
    exact hs c hc (char_toNat_thirteen hEq)
  rw [h0]
  decide

/-- Claim C5: response reading is byte-at-a-time: terminator bytes (10 or
13) are discarded while the buffer is empty and end the read once it is
non-empty, any other byte is appended; `get_position` on the simulated
stream "1234\n" returns 1234, on "\r\r5\r" returns 5, and when no
terminator arrives before the read times out it fails with `Timeout`; a
timed-out byte read maps to `Timeout`, any other read error to the I/O
error constructor. -/
theorem c5_read_response_bytewise :
    (get_position_of (("1234\n".toList).map (fun c => ReadEvent.byte c.toNat))
      = some (Except.ok 1234)) ∧
    (get_position_of (("\r\r5\r".toList).map (fun c => ReadEvent.byte c.toNat))
      = some (Except.ok 5)) ∧
    (get_position_of (("99".toList).map (fun c => ReadEvent.byte c.toNat)
      ++ [ReadEvent.timedOut]) = some (Except.error ArcusError.Timeout)) ∧
    (∀ rest buf, read_response_loop (ReadEvent.timedOut :: rest) buf
      = some (Except.error ArcusError.Timeout)) ∧
    (∀ rest buf m, read_response_loop (ReadEvent.ioFail m :: rest) buf
      = some (Except.error (ArcusError.IoError m))) ∧
    (∀ rest b, (b = 10 ∨ b = 13) →
      read_response_loop (ReadEvent.byte b :: rest) [] = read_response_loop rest []) ∧
    (∀ rest b buf, (b = 10 ∨ b = 13) → buf ≠ [] →
      read_response_loop (ReadEvent.byte b :: rest) buf
        = some (Except.ok (decodeAscii buf))) ∧
    (∀ rest b buf, ¬ (b = 10 ∨ b = 13) →
      read_response_loop (ReadEvent.byte b :: rest) buf
        = read_response_loop rest (buf ++ [b])) := by
  refine ⟨by decide, by decide, by decide, fun rest buf => rfl, fun rest buf m => rfl,
    ?_, ?_, ?_⟩
  · intro rest b hb
    rw [read_response_loop, if_pos hb]
    rfl
  · intro rest b buf hb hbuf
    rw [read_response_loop, if_pos hb, if_neg]
    simp [List.isEmpty_iff, hbuf]
  · intro rest b buf hb
    rw [read_response_loop, if_neg hb]

theorem c5_read_response_bytewise_witness :
    (((10 : Nat) = 10 ∨ (10 : Nat) = 13) ∧
      read_response_loop [ReadEvent.byte 10, ReadEvent.timedOut] []
        = read_response_loop [ReadEvent.timedOut] []) ∧
    (([53] : List Nat) ≠ [] ∧
      read_response_loop [ReadEvent.byte 13] [53] = some (Except.ok (decodeAscii [53]))) ∧
    (¬ ((53 : Nat) = 10 ∨ (53 : Nat) = 13) ∧
      read_response_loop [ReadEvent.byte 53, ReadEvent.timedOut] []
        = read_response_loop [ReadEvent.timedOut] ([] ++ [53])) :=
  ⟨⟨by decide, c5_read_response_bytewise.2.2.2.2.2.1 [ReadEvent.timedOut] 10 (by decide)⟩,
   ⟨by decide, c5_read_response_bytewise.2.2.2.2.2.2.1 [] 13 [53] (by decide) (by decide)⟩,
   ⟨by decide, c5_read_response_bytewise.2.2.2.2.2.2.2 [ReadEvent.timedOut] 53 [] (by decide)⟩⟩

/-- Claim C6: for every response line, `is_moving` is true exactly when
the response parses to an odd integer (`Int.emod` by 2 equal to 1 is the
bit-0 test of the source), and an unparsable response yields `false`, not
an error. -/
theorem c6_is_moving_parity :
    ∀ resp : String,
      (∀ n : Int, parseI32 (rustTrim resp) = some n →
        (is_moving_of resp = true ↔ n % 2 = 1)) ∧
      (parseI32 (rustTrim resp) = none → is_moving_of resp = false) := by
  intro resp
  constructor
  · intro n hn
    unfold is_moving_of
    rw [hn]
    simp only [Option.getD_some, bne_iff_ne, ne_eq]
    omega
  · intro hn
    unfold is_moving_of
    rw [hn]
    decide

theorem c6_is_moving_parity_witness :
    (parseI32 (rustTrim " 3 ") = some 3 ∧ (is_moving_of " 3 " = true ↔ (3 : Int) % 2 = 1)) ∧
    (parseI32 (rustTrim "-4") = some (-4) ∧ (is_moving_of "-4" = true ↔ (-4 : Int) % 2 = 1)) ∧
    (parseI32 (rustTrim "abc") = none ∧ is_moving_of "abc" = false) :=
  ⟨⟨by decide, (c6_is_moving_parity " 3 ").1 3 (by decide)⟩,
   ⟨by decide, (c6_is_moving_parity "-4").1 (-4) (by decide)⟩,
   ⟨by decide, (c6_is_moving_parity "abc").2 (by decide)⟩⟩

/-- Claim C7: every transmitted command is exactly the bytes of its ASCII
command text followed by one carriage-return byte (13): the byte sequence
always ends in 13 and, for each of the four commands the driver sends,
the carriage return occurs exactly once in the transmission (the command
texts themselves are CR-free as long as the axis character is). -/
theorem c7_commands_cr_terminated :
    ∀ (cmd : String) (axis : Char) (position speed : Int), axis ≠ '\r' →
      (send_command_bytes cmd = strBytes cmd ++ [13]) ∧
      ((send_command_bytes cmd).getLast? = some 13) ∧
      ((send_command_bytes (get_position_cmd axis)).count 13 = 1) ∧
      ((send_command_bytes (move_to_cmd axis position)).count 13 = 1) ∧
      ((send_command_bytes is_moving_cmd).count 13 = 1) ∧
      ((send_command_bytes (set_high_speed_cmd axis speed)).count 13 = 1) := by
  intro cmd axis position speed haxis
  refine ⟨rfl, ?_, ?_, ?_, by decide, ?_⟩
  · unfold send_command_bytes
    exact List.getLast?_concat _
  · apply count_cr_send
    intro c hc
    have hl : (get_position_cmd axis).toList = ['P', axis] := rfl
    rw [hl] at hc
    rcases List.mem_cons.mp hc with h | h
    · subst h; decide
    · rcases List.mem_cons.mp h with h2 | h2
      · subst h2; exact haxis
      · cases h2
  · apply count_cr_send
    intro c hc
    have hl : (move_to_cmd axis position).toList
        = axis :: (toString position).toList := rfl
    rw [hl] at hc
    rcases List.mem_cons.mp hc with h | h
    · subst h; exact haxis
    · exact toString_int_ne_cr position c h
  · apply count_cr_send
    intro c hc
    have hl : (set_high_speed_cmd axis speed).toList
        = 'H' :: 'S' :: axis :: '=' :: (toString speed).toList := rfl
    rw [hl] at hc
    rcases List.mem_cons.mp hc with h | h
    · subst h; decide
    rcases List.mem_cons.mp h with h | h
    · subst h; decide
    rcases List.mem_cons.mp h with h | h
    · subst h; exact haxis
    rcases List.mem_cons.mp h with h | h
    · subst h; decide
    exact toString_int_ne_cr speed c h

theorem c7_commands_cr_terminated_witness :
    ('x' ≠ '\r') ∧
    (send_command_bytes "MST" = strBytes "MST" ++ [13]) ∧
    ((send_command_bytes "MST").getLast? = some 13) ∧
    ((send_command_bytes (get_position_cmd 'x')).count 13 = 1) ∧
    ((send_command_bytes (move_to_cmd 'x' (-1000))).count 13 = 1) ∧
    ((send_command_bytes is_moving_cmd).count 13 = 1) ∧
    ((send_command_bytes (set_high_speed_cmd 'x' 500)).count 13 = 1) :=
  ⟨by decide,
   (c7_commands_cr_terminated "MST" 'x' (-1000) 500 (by decide)).1,
   (c7_commands_cr_terminated "MST" 'x' (-1000) 500 (by decide)).2.1,
   (c7_commands_cr_terminated "MST" 'x' (-1000) 500 (by decide)).2.2.1,
   (c7_commands_cr_terminated "MST" 'x' (-1000) 500 (by decide)).2.2.2.1,
   (c7_commands_cr_terminated "MST" 'x' (-1000) 500 (by decide)).2.2.2.2.1,
   (c7_commands_cr_terminated "MST" 'x' (-1000) 500 (by decide)).2.2.2.2.2⟩

theorem targetList_cons {x_min x_max step : Int} (h1 : 0 < step) (h2 : x_min ≤ x_max) :
    targetList x_min x_max step = x_min :: targetList (x_min + step) x_max step := by
  rw [targetList]
  exact dif_pos ⟨h1, h2⟩

theorem targetList_nil {x_min x_max step : Int} (h : ¬ (0 < step ∧ x_min ≤ x_max)) :
    targetList x_min x_max step = [] := by
  rw [targetList]
  exact dif_neg h

theorem pollLoop_arrived_tol (d : Device) (cx : Int) :
    ∀ (fuel p : Nat) (pos : Int) (p2 : Nat),
      pollLoop d cx p fuel = PollRes.arrived pos p2 → (pos - cx).natAbs < 5 := by
  intro fuel
  induction fuel with
  | zero => intro p pos p2 h; cases h
  | succ fuel ih =>
    intro p pos p2 h
    rw [pollLoop] at h
    cases hres : d.posResult p with
    | error e => rw [hres] at h; cases h
    | ok q =>
      rw [hres] at h
      dsimp only at h
      by_cases htol : (q - cx).natAbs < 5
      · rw [if_pos htol] at h
        cases h
        exact htol
      · rw [if_neg htol] at h
        exact ih (p + 1) pos p2 h

theorem pollLoop_fails_after_retries (d : Device) (cx : Int) (e : ArcusError) :
    ∀ (k p fuel : Nat),
      (∀ i, i < k → ∃ pos, d.posResult (p + i) = Except.ok pos ∧ ¬ (pos - cx).natAbs < 5) →
      d.posResult (p + k) = Except.error e →
      pollLoop d cx p (fuel + k + 1) = PollRes.failed e (p + k + 1) := by
  intro k
  induction k with
  | zero =>
    intro p fuel hretry herr
    rw [show p + 0 = p from rfl] at herr
    rw [pollLoop, herr]
  | succ k ih =>
    intro p fuel hretry herr
    obtain ⟨pos, hpos, htol⟩ := hretry 0 (by omega)
    rw [show p + 0 = p from rfl] at hpos
    have hstep : pollLoop d cx p (fuel + (k + 1) + 1)
        = pollLoop d cx (p + 1) (fuel + k + 1) := by
      rw [show fuel + (k + 1) + 1 = (fuel + k + 1) + 1 from by omega, pollLoop, hpos]
      dsimp only
      rw [if_neg htol]
    have hretry2 : ∀ i, i < k →
        ∃ pos2, d.posResult ((p + 1) + i) = Except.ok pos2 ∧ ¬ (pos2 - cx).natAbs < 5 := by
      intro i hi
      obtain ⟨pos2, h1, h2⟩ := hretry (i + 1) (by omega)
      rw [show p + (i + 1) = (p + 1) + i from by omega] at h1
      exact ⟨pos2, h1, h2⟩
    have herr2 : d.posResult ((p + 1) + k) = Except.error e := by
      rw [show (p + 1) + k = p + (k + 1) from by omega]
      exact herr
    rw [hstep, ih (p + 1) fuel hretry2 herr2]
    congr 1
    omega

theorem sweepLoop_nonpos_no_ok (d : Device) (x_max step : Int) (hstep : step ≤ 0) :
    ∀ (fuel : Nat) (cx : Int) (acc : List (Int × Int)) (m p : Nat)
      (res : List (Int × Int)) (m2 p2 : Nat), cx ≤ x_max →
      sweepLoop d x_max step cx acc m p fuel ≠ ScanRes.ok res m2 p2 := by
  intro fuel
  induction fuel with
  | zero => intro cx acc m p res m2 p2 hcx h; cases h
  | succ fuel ih =>
    intro cx acc m p res m2 p2 hcx h
    rw [sweepLoop, if_pos hcx] at h
    cases hmv : d.moveResult m with
    | error e => rw [hmv] at h; cases h
    | ok u =>
      rw [hmv] at h
      dsimp only at h
      cases hpl : pollLoop d cx p fuel with
      | failed e p3 => rw [hpl] at h; cases h
      | diverge => rw [hpl] at h; cases h
      | arrived pos p3 =>
        rw [hpl] at h
        exact ih (cx + step) (acc ++ [(cx, pos)]) (m + 1) p3 res m2 p2 (by omega) h

theorem sweepLoop_ok_spec (d : Device) (x_max step : Int) :
    ∀ (fuel : Nat) (cx : Int) (acc : List (Int × Int)) (m p : Nat)
      (res : List (Int × Int)) (m2 p2 : Nat),
      sweepLoop d x_max step cx acc m p fuel = ScanRes.ok res m2 p2 →
      ∃ tail, res = acc ++ tail ∧ tail.map Prod.fst = targetList cx x_max step ∧
        ∀ pr ∈ tail, ((pr : Int × Int).2 - pr.1).natAbs < 5 := by
  intro fuel
  induction fuel with
  | zero => intro cx acc m p res m2 p2 h; cases h
  | succ fuel ih =>
    intro cx acc m p res m2 p2 h
    by_cases hcx : cx ≤ x_max
    · have hstep : 0 < step := by
        by_contra hs
        exact sweepLoop_nonpos_no_ok d x_max step (by omega) (fuel + 1)
          cx acc m p res m2 p2 hcx h
      rw [sweepLoop, if_pos hcx] at h
      cases hmv : d.moveResult m with
      | error e => rw [hmv] at h; cases h
      | ok u =>
        rw [hmv] at h
        cases hpl : pollLoop d cx p fuel with
        | failed e p3 => rw [hpl] at h; cases h
        | diverge => rw [hpl] at h; cases h
        | arrived pos p3 =>
          rw [hpl] at h
          obtain ⟨tail, htail, hmap, htol⟩ :=
            ih (cx + step) (acc ++ [(cx, pos)]) (m + 1) p3 res m2 p2 h
          refine ⟨(cx, pos) :: tail, ?_, ?_, ?_⟩
          · rw [htail, List.append_assoc]
            rfl
          · rw [List.map_cons, hmap, targetList_cons hstep hcx]
          · intro pr hpr
            rcases List.mem_cons.mp hpr with hp | hp
            · subst hp
              exact pollLoop_arrived_tol d cx fuel p pos p3 hpl
            · exact htol pr hp
    · rw [sweepLoop, if_neg hcx] at h
      cases h
      refine ⟨[], by simp, ?_, by intro pr hpr; cases hpr⟩
      rw [targetList_nil]
      · rfl
      · intro hcon
        exact hcx hcon.2

/-- Claim C1, corrected: during the initial arrival-wait the error from a
failed `get_position` is indeed swallowed (never propagated: the run
proceeds to the sweep), but the claim that the loop keeps polling until a
position within 10 of `x_min` is observed is false: the `while let` loop
exits on the first failed query.  Here the device always fails its
position queries — no position within 10 of `x_min` is ever observed —
yet the arrival-wait phase ends after exactly one query. -/
theorem c1_counterexample_wait_exits_on_error :
    devErrPos.posResult 0 = Except.error ArcusError.Timeout ∧
    arrivalWait devErrPos 0 0 5 = some 1 ∧
    start_scan_run devErrPos 0 0 0 10 5 6 = ScanRes.err ArcusError.Timeout 2 2 :=
  ⟨rfl, by decide, by decide⟩

/-- Claim C1, amended: during the initial arrival-wait, a failed
`get_position` ends the wait loop at once with the error swallowed (the
scan continues into the sweep loop instead of propagating it); polling
continues only while the query succeeds with a position not within 10
units of `x_min`, and a position within 10 also ends the loop. -/
theorem c1_arrival_wait_swallows_and_exits :
    ∀ (d : Device) (x_min x_max step : Int) (p fuel : Nat) (e : ArcusError) (pos : Int),
      (d.posResult p = Except.error e →
        arrivalWait d x_min p (fuel + 1) = some (p + 1)) ∧
      (d.posResult p = Except.ok pos → (pos - x_min).natAbs < 10 →
        arrivalWait d x_min p (fuel + 1) = some (p + 1)) ∧
      (d.posResult p = Except.ok pos → ¬ (pos - x_min).natAbs < 10 →
        arrivalWait d x_min p (fuel + 1) = arrivalWait d x_min (p + 1) fuel) ∧
      (d.moveResult 0 = Except.ok () → d.posResult 0 = Except.error e →
        start_scan_run d 0 0 x_min x_max step (fuel + 1)
          = sweepLoop d x_max step x_min [] 1 1 (fuel + 1)) := by
  intro d x_min x_max step p fuel e pos
  refine ⟨?_, ?_, ?_, ?_⟩
  · intro h
    rw [arrivalWait, h]
  · intro h htol
    rw [arrivalWait, h]
    dsimp only
    rw [if_pos htol]
  · intro h htol
    rw [arrivalWait, h]
    dsimp only
    rw [if_neg htol]
  · intro hmv hpos
    unfold start_scan_run
    rw [hmv]
    have haw : arrivalWait d x_min 0 (fuel + 1) = some 1 := by
      rw [arrivalWait, hpos]
    rw [haw]

theorem c1_arrival_wait_swallows_and_exits_witness :
    (devErrPos.posResult 3 = Except.error ArcusError.Timeout ∧
      arrivalWait devErrPos 0 3 8 = some 4) ∧
    (devExample.posResult 0 = Except.ok 0 ∧ ((0 : Int) - 0).natAbs < 10 ∧
      arrivalWait devExample 0 0 8 = some 1) ∧
    (devExample.posResult 3 = Except.ok 10 ∧ ¬ ((10 : Int) - 99).natAbs < 10 ∧
      arrivalWait devExample 99 3 8 = arrivalWait devExample 99 4 7) ∧
    (devErrPos.moveResult 0 = Except.ok () ∧
      start_scan_run devErrPos 0 0 0 10 5 8 = sweepLoop devErrPos 10 5 0 [] 1 1 8) :=
  ⟨⟨rfl, (c1_arrival_wait_swallows_and_exits devErrPos 0 10 5 3 7
      ArcusError.Timeout 0).1 rfl⟩,
   ⟨rfl, by decide, (c1_arrival_wait_swallows_and_exits devExample 0 10 5 0 7
      ArcusError.Timeout 0).2.1 rfl (by decide)⟩,
   ⟨rfl, by decide, (c1_arrival_wait_swallows_and_exits devExample 99 10 5 3 7
      ArcusError.Timeout 10).2.2.1 rfl (by decide)⟩,
   ⟨rfl, (c1_arrival_wait_swallows_and_exits devErrPos 0 10 5 0 7
      ArcusError.Timeout 0).2.2.2 rfl rfl⟩⟩

/-- Claim C2: a successful `start_scan` run returns one pair per swept
target, whose first components are exactly `x_min, x_min + step, …` up to
and including the last value `≤ x_max` in that order, and every recorded
measured position is within 5 units of its target. -/
theorem c2_scan_result_spec :
    ∀ (d : Device) (x_min x_max step : Int) (fuel : Nat)
      (res : List (Int × Int)) (m p : Nat),
      start_scan_run d 0 0 x_min x_max step fuel = ScanRes.ok res m p →
      res.map Prod.fst = targetList x_min x_max step ∧
      ∀ pr ∈ res, ((pr : Int × Int).2 - pr.1).natAbs < 5 := by
  intro d x_min x_max step fuel res m p h
  unfold start_scan_run at h
  cases hmv : d.moveResult 0 with
  | error e => rw [hmv] at h; cases h
  | ok u =>
    rw [hmv] at h
    dsimp only at h
    cases haw : arrivalWait d x_min 0 fuel with
    | none => rw [haw] at h; cases h
    | some p0 =>
      rw [haw] at h
      dsimp only at h
      obtain ⟨tail, htail, hmap, htol⟩ :=
        sweepLoop_ok_spec d x_max step fuel x_min [] 1 p0 res m p h
      rw [List.nil_append] at htail
      subst htail
      exact ⟨hmap, htol⟩

theorem c2_scan_result_spec_witness :
    start_scan_run devExample 0 0 0 10 5 20
      = ScanRes.ok [(0, 0), (5, 5), (10, 10)] 4 4 ∧
    ([((0 : Int), (0 : Int)), (5, 5), (10, 10)]).map Prod.fst = targetList 0 10 5 :=
  ⟨by decide,
   (c2_scan_result_spec devExample 0 10 5 20 [(0, 0), (5, 5), (10, 10)] 4 4 (by decide)).1⟩

/-- Claim C3: with `step ≤ 0` and a non-empty range the sweep loop never
completes: whatever the device does and however much fuel the run is
given, `start_scan` never returns a result list — the run either is still
going (fuel exhausted) or has ended with a propagated `move_to` or
`get_position` error. -/
theorem c3_nonpos_step_never_returns :
    ∀ (d : Device) (x_min x_max step : Int) (fuel : Nat), step ≤ 0 → x_min ≤ x_max →
      start_scan_run d 0 0 x_min x_max step fuel = ScanRes.diverge ∨
      ∃ e m p, start_scan_run d 0 0 x_min x_max step fuel = ScanRes.err e m p := by
  intro d x_min x_max step fuel hstep hle
  unfold start_scan_run
  cases hmv : d.moveResult 0 with
  | error e => exact Or.inr ⟨e, 1, 0, rfl⟩
  | ok u =>
    dsimp only
    cases haw : arrivalWait d x_min 0 fuel with
    | none => exact Or.inl rfl
    | some p =>
      dsimp only
      cases hsw : sweepLoop d x_max step x_min [] 1 p fuel with
      | diverge => exact Or.inl rfl
      | err e m2 p2 => exact Or.inr ⟨e, m2, p2, rfl⟩
      | ok res m2 p2 =>
        exact absurd hsw
          (sweepLoop_nonpos_no_ok d x_max step hstep fuel x_min [] 1 p res m2 p2 hle)

theorem c3_nonpos_step_never_returns_witness :
    (0 : Int) ≤ 0 ∧
    (start_scan_run devExample 0 0 0 0 0 5 = ScanRes.diverge ∨
      ∃ e m p, start_scan_run devExample 0 0 0 0 0 5 = ScanRes.err e m p) :=
  ⟨by decide, c3_nonpos_step_never_returns devExample 0 0 0 5 (by decide) (by decide)⟩

/-- Claim C4: during the per-step sweep, a failing `move_to` or a failing
`get_position` — whether the tight poll loop fails on its first query or
only after any number `k` of out-of-tolerance retries — makes the whole
run end with exactly that error, whatever results `acc` had been
accumulated so far in the call: the error outcome carries no result list,
so partial results are discarded and a result list is only ever returned
on full completion of the sweep. -/
theorem c4_sweep_errors_propagate :
    ∀ (d : Device) (x_max step cx : Int) (acc : List (Int × Int)) (m p fuel k : Nat)
      (e : ArcusError), cx ≤ x_max →
      (d.moveResult m = Except.error e →
        sweepLoop d x_max step cx acc m p (fuel + 1) = ScanRes.err e (m + 1) p) ∧
      (d.moveResult m = Except.ok () →
        ∀ p2, pollLoop d cx p fuel = PollRes.failed e p2 →
          sweepLoop d x_max step cx acc m p (fuel + 1) = ScanRes.err e (m + 1) p2) ∧
      (d.moveResult m = Except.ok () →
        (∀ i, i < k → ∃ pos, d.posResult (p + i) = Except.ok pos ∧ ¬ (pos - cx).natAbs < 5) →
        d.posResult (p + k) = Except.error e →
        sweepLoop d x_max step cx acc m p (fuel + k + 2)
          = ScanRes.err e (m + 1) (p + k + 1)) := by
  intro d x_max step cx acc m p fuel k e hcx
  refine ⟨?_, ?_, ?_⟩
  · intro hmv
    rw [sweepLoop, if_pos hcx, hmv]
  · intro hmv p2 hpl
    rw [sweepLoop, if_pos hcx, hmv]
    dsimp only
    rw [hpl]
  · intro hmv hretry herr
    have hpl := pollLoop_fails_after_retries d cx e k p fuel hretry herr
    rw [show fuel + k + 2 = (fuel + 1 + k) + 1 from by omega, sweepLoop, if_pos hcx, hmv]
    dsimp only
    rw [show fuel + 1 + k = fuel + k + 1 from by omega, hpl]

theorem c4_sweep_errors_propagate_witness :
    ((0 : Int) ≤ 10 ∧
      devRetryFail.moveResult 2 = Except.error (ArcusError.Serial "gone") ∧
      sweepLoop devRetryFail 10 5 0 [(1, 1)] 2 7 5
        = ScanRes.err (ArcusError.Serial "gone") 3 7) ∧
    (devRetryFail.moveResult 1 = Except.ok () ∧
      pollLoop devRetryFail 0 1 4 = PollRes.failed ArcusError.Timeout 3 ∧
      sweepLoop devRetryFail 10 5 0 [(99, 99)] 1 1 5
        = ScanRes.err ArcusError.Timeout 2 3) ∧
    (devRetryFail.posResult 1 = Except.ok 50 ∧ ¬ ((50 : Int) - 0).natAbs < 5 ∧
      devRetryFail.posResult 2 = Except.error ArcusError.Timeout ∧
      sweepLoop devRetryFail 10 5 0 [(99, 99)] 1 1 5
        = ScanRes.err ArcusError.Timeout 2 3) :=
  ⟨⟨by decide, by decide,
    (c4_sweep_errors_propagate devRetryFail 10 5 0 [(1, 1)] 2 7 4 0
       (ArcusError.Serial "gone") (by decide)).1 (by decide)⟩,
   ⟨by decide, by decide,
    (c4_sweep_errors_propagate devRetryFail 10 5 0 [(99, 99)] 1 1 4 0
       ArcusError.Timeout (by decide)).2.1 (by decide) 3 (by decide)⟩,
   ⟨by decide, by decide, by decide,
    (c4_sweep_errors_propagate devRetryFail 10 5 0 [(99, 99)] 1 1 2 1
       ArcusError.Timeout (by decide)).2.2 (by decide)
      (by
        intro i hi
        have hi0 : i = 0 := by omega
        subst hi0
        exact ⟨50, rfl, by decide⟩)
      (by decide)⟩⟩

/-- Claim C8: `move_axis` and `start_scan` on an executor with no stored
controller fail with the `Not connected` usage error (a runtime error, not
an I/O-class error) and leave the executor untouched — in this model every
serial interaction consumes a device-call index from a stored controller,
so an unchanged, still-absent controller means no communication happened. -/
theorem c8_not_connected_usage_error :
    ∀ (ex : RustScanExecutor) (axis : Char) (position x_min x_max step : Int) (fuel : Nat),
      ex.controller = none →
      ex.move_axis axis position
        = (Except.error (PyErr.runtimeError "Not connected"), ex) ∧
      ex.start_scan x_min x_max step fuel
        = some (Except.error (PyErr.runtimeError "Not connected"), ex) := by
  intro ex axis position x_min x_max step fuel hc
  constructor
  · unfold RustScanExecutor.move_axis
    rw [hc]
  · unfold RustScanExecutor.start_scan
    rw [hc]

theorem c8_not_connected_usage_error_witness :
    (RustScanExecutor.new "COM3" 9600).controller = none ∧
    (RustScanExecutor.new "COM3" 9600).move_axis 'x' 100
      = (Except.error (PyErr.runtimeError "Not connected"), RustScanExecutor.new "COM3" 9600) ∧
    (RustScanExecutor.new "COM3" 9600).start_scan 0 10 5 9
      = some (Except.error (PyErr.runtimeError "Not connected"), RustScanExecutor.new "COM3" 9600) :=
  ⟨rfl,
   (c8_not_connected_usage_error (RustScanExecutor.new "COM3" 9600) 'x' 100 0 10 5 9 rfl).1,
   (c8_not_connected_usage_error (RustScanExecutor.new "COM3" 9600) 'x' 100 0 10 5 9 rfl).2⟩

/-- Claim C9: with an empty range (`x_min > x_max`) a connected scan
performs zero sweep iterations and returns the empty result list for every
step value, including `step ≤ 0`, provided the initial move succeeds and
the arrival-wait loop exits: after the run only the one initial `move_to`
and the arrival-wait queries have been consumed. -/
theorem c9_empty_range_empty_result :
    ∀ (pn : String) (br : Nat) (d : Device) (x_min x_max step : Int) (fuel p : Nat),
      x_max < x_min →
      d.moveResult 0 = Except.ok () →
      arrivalWait d x_min 0 fuel = some p →
      RustScanExecutor.start_scan
          { port_name := pn, baud_rate := br,
            controller := some { device := d, mCount := 0, pCount := 0 } }
          x_min x_max step fuel
        = some (Except.ok [],
            { port_name := pn, baud_rate := br,
              controller := some { device := d, mCount := 1, pCount := p } }) := by
  intro pn br d x_min x_max step fuel p hlt hmv haw
  cases fuel with
  | zero => cases haw
  | succ fuel =>
    have hrun : start_scan_run d 0 0 x_min x_max step (fuel + 1) = ScanRes.ok [] 1 p := by
      unfold start_scan_run
      rw [hmv]
      dsimp only
      rw [haw]
      dsimp only
      rw [sweepLoop, if_neg (by omega)]
    unfold RustScanExecutor.start_scan
    dsimp only
    rw [hrun]

theorem c9_empty_range_empty_result_witness :
    (0 : Int) < 5 ∧ devExample.moveResult 0 = Except.ok () ∧
    arrivalWait devExample 5 0 4 = some 1 ∧
    RustScanExecutor.start_scan
        { port_name := "COM3", baud_rate := 9600,
          controller := some { device := devExample, mCount := 0, pCount := 0 } }
        5 0 0 4
      = some (Except.ok [],
          { port_name := "COM3", baud_rate := 9600,
            controller := some { device := devExample, mCount := 1, pCount := 1 } }) :=
  ⟨by decide, by decide, by decide,
   c9_empty_range_empty_result "COM3" 9600 devExample 5 0 0 4 1
     (by decide) (by decide) (by decide)⟩

/-- Claim C10: a failing `connect` renders its error as an I/O-class error
and leaves the executor — in particular any previously stored controller —
exactly as it was, so subsequent `move_axis` and `start_scan` calls behave
as before the failed attempt; the stored controller is replaced (with
fresh call counters) only when `connect` succeeds. -/
theorem c10_connect_failure_preserves_controller :
    ∀ (ex : RustScanExecutor) (e : ArcusError) (d : Device) (axis : Char)
      (position x_min x_max step : Int) (fuel : Nat),
      ((ex.connect (Except.error e)).1
        = Except.error (PyErr.pyIOError e.toMessage)) ∧
      ((ex.connect (Except.error e)).2 = ex) ∧
      (((ex.connect (Except.error e)).2).move_axis axis position
        = ex.move_axis axis position) ∧
      (((ex.connect (Except.error e)).2).start_scan x_min x_max step fuel
        = ex.start_scan x_min x_max step fuel) ∧
      (((ex.connect (Except.ok d)).2).controller
        = some { device := d, mCount := 0, pCount := 0 }) := by
  intro ex e d axis position x_min x_max step fuel
  exact ⟨rfl, rfl, rfl, rfl, rfl⟩
